import Mathlib

/-!
Verification of the crc32c library (crc32c.h / crc32c.c): a CRC-32C
(Castagnoli) checksum with a bit-serial software engine, an x86
hardware-instruction engine, and a process-wide dispatcher with a
one-time initialization guard, an environment override, a force-software
ratchet and a hardware-vs-software self-check.

Machine integers are modelled as `Nat` with explicit `% 2 ^ 32`
(resp. `% 256`) where the C code truncates.  A byte buffer `const char *s`
together with its length is modelled as a `List Nat`; each element is read
through the `(unsigned char)` cast, i.e. `% 256`.
-/

set_option maxRecDepth 1000000

namespace Crc32c

/-- CRC-32C (iSCSI) polynomial in reversed bit order (`#define POLY`). -/
def POLY : Nat := 0x82f63b78

/-- One shift-and-XOR step of the bit-serial loop:
`h = h & 1 ? (h >> 1) ^ POLY : h >> 1`. -/
def crcStep (h : Nat) : Nat :=
  if h % 2 = 1 then (h / 2) ^^^ POLY else h / 2

/-- One iteration of the `while (len--)` body of `crc32c_sw`:
`h ^= *s++;` followed by the 8-fold inner loop. -/
def crcByte (h b : Nat) : Nat := crcStep^[8] (h ^^^ (b % 256))

/-- The register after feeding the whole buffer, starting from `h`. -/
def crcFold (h : Nat) (s : List Nat) : Nat := s.foldl crcByte h

/-- Software engine `uint32_t crc32c_sw(const char *src, size_t len)`: initial register
`~0`, bit-serial loop over the bytes, final complement `~h`. -/
def crc32c_sw (s : List Nat) : Nat := (crcFold 0xffffffff s) ^^^ 0xffffffff

/-- The `k` bytes of a machine integer, least-significant byte first (the
order in which a little-endian `memcpy` laid them out in memory). -/
def bytesLE : Nat → Nat → List Nat
  | 0, _ => []
  | k + 1, v => v % 256 :: bytesLE k (v / 256)

/-- The little-endian integer that a `memcpy` from a buffer holding the
given bytes produces (`uint64_t v; memcpy(&v, s, sizeof(v));` etc.). -/
def le_load : List Nat → Nat
  | [] => 0
  | b :: bs => b % 256 + 256 * le_load bs

/-- Architectural semantics of the x86 `crc32` instruction family
(`_mm_crc32_u8/u16/u32/u64`): accumulate the CRC-32C remainder over the
`k` bytes of the operand, least-significant byte first, starting from the
low 32 bits of the accumulator.  The result always fits in 32 bits. -/
def mm_crc32 (k : Nat) (crc v : Nat) : Nat := crcFold (crc % 2 ^ 32) (bytesLE k v)

/-- The `while (len > 7)` loop of `crc32c_hw_body`: as long as at least 8
bytes remain, `memcpy` 8 bytes into `v`, `hh = _mm_crc32_u64(hh, v)`, and
advance.  Returns the final accumulator and the unconsumed tail. -/
def hwLoop64 (hh : Nat) (s : List Nat) : Nat × List Nat :=
  if s.length > 7 then
    hwLoop64 (mm_crc32 8 hh (le_load (s.take 8))) (s.drop 8)
  else (hh, s)
termination_by s.length
decreasing_by simp; omega

/-- Hardware body `static uint32_t crc32c_hw_body(const char *src, size_t len)`,
`__x86_64__` compilation (the `#ifdef __x86_64__` branch): `uint64_t hh = ~0u`
(= `0xffffffff` zero-extended), the 8-byte bulk loop, the truncation
`h = (uint32_t)hh`, then the shared 4-, 2- and 1-byte tail steps guarded by
`len > 3`, `len > 1`, `len > 0`, and the final `~h`.  The `#else`
(`__i386__`) compilation of the same function is `crc32c_hw_body_i386`
below. -/
def crc32c_hw_body (s : List Nat) : Nat :=
  let r0 := (hwLoop64 0xffffffff s).2
  let h0 := (hwLoop64 0xffffffff s).1 % 2 ^ 32
  let h1 := if r0.length > 3 then mm_crc32 4 h0 (le_load (r0.take 4)) else h0
  let r1 := if r0.length > 3 then r0.drop 4 else r0
  let h2 := if r1.length > 1 then mm_crc32 2 h1 (le_load (r1.take 2)) else h1
  let r2 := if r1.length > 1 then r1.drop 2 else r1
  let h3 := if r2.length > 0 then mm_crc32 1 h2 (le_load (r2.take 1)) else h2
  h3 ^^^ 0xffffffff

/-- Hardware body, `__i386__` compilation (the `#else` of
`#ifdef __x86_64__`, still under `X86_ONLY`): there is no bulk loop —
only `h = (uint32_t)hh` with `hh = ~0u`, followed by the same single-shot
4-, 2- and 1-byte `if` steps and the final `~h`.  The `if`s are not
loops, so at most 4 + 2 + 1 = 7 bytes of the buffer are ever consumed. -/
def crc32c_hw_body_i386 (s : List Nat) : Nat :=
  let h0 := (0xffffffff : Nat) % 2 ^ 32
  let h1 := if s.length > 3 then mm_crc32 4 h0 (le_load (s.take 4)) else h0
  let r1 := if s.length > 3 then s.drop 4 else s
  let h2 := if r1.length > 1 then mm_crc32 2 h1 (le_load (r1.take 2)) else h1
  let r2 := if r1.length > 1 then r1.drop 2 else r1
  let h3 := if r2.length > 0 then mm_crc32 1 h2 (le_load (r2.take 1)) else h2
  h3 ^^^ 0xffffffff

/-- The compilation target of the library: 64-bit x86 and 32-bit x86 are
both `X86_ONLY` (they differ inside `crc32c_hw_body`); everything else
has no hardware path at all. -/
inductive Arch
  | x8664
  | i386
  | other
deriving DecidableEq, Repr

/-- Hardware engine `uint32_t crc32c_hw(const char *src, size_t len)`: on x86
(`X86_ONLY`) it calls `crc32c_hw_body` — whose code depends on the
`__x86_64__` / `__i386__` dichotomy — and on every other architecture it
is defined as a call to `crc32c_sw`. -/
def crc32c_hw (a : Arch) (s : List Nat) : Nat :=
  match a with
  | Arch.x8664 => crc32c_hw_body s
  | Arch.i386 => crc32c_hw_body_i386 s
  | Arch.other => crc32c_sw s

/-! ### Bounds: every register value stays below `2 ^ 32`. -/

theorem crcStep_lt {h : Nat} (hh : h < 2 ^ 32) : crcStep h < 2 ^ 32 := by
  unfold crcStep
  have h2 : h / 2 < 2 ^ 32 := lt_of_le_of_lt (Nat.div_le_self h 2) hh
  split
  · exact Nat.xor_lt_two_pow h2 (by norm_num [POLY])
  · exact h2

theorem crcStep_iter_lt (n : Nat) {h : Nat} (hh : h < 2 ^ 32) :
    crcStep^[n] h < 2 ^ 32 := by
  induction n generalizing h with
  | zero => simpa using hh
  | succ n ih =>
    rw [Function.iterate_succ_apply]
    exact ih (crcStep_lt hh)

theorem crcByte_lt {h : Nat} (b : Nat) (hh : h < 2 ^ 32) :
    crcByte h b < 2 ^ 32 := by
  unfold crcByte
  exact crcStep_iter_lt 8
    (Nat.xor_lt_two_pow hh (lt_of_lt_of_le (Nat.mod_lt b (by norm_num)) (by norm_num)))

theorem crcFold_lt {h : Nat} (s : List Nat) (hh : h < 2 ^ 32) :
    crcFold h s < 2 ^ 32 := by
  induction s generalizing h with
  | nil => simpa [crcFold] using hh
  | cons b s ih => exact ih (crcByte_lt b hh)

/-! ### The intrinsics model agrees with byte-wise folding. -/

theorem crcByte_mod (h b : Nat) : crcByte h (b % 256) = crcByte h b := by
  unfold crcByte
  rw [Nat.mod_mod_of_dvd b (dvd_refl 256)]

theorem crcFold_map_mod (h : Nat) (s : List Nat) :
    crcFold h (s.map (· % 256)) = crcFold h s := by
  induction s generalizing h with
  | nil => rfl
  | cons b s ih => simpa [crcFold, crcByte_mod] using ih (crcByte h b)

theorem bytesLE_le_load (s : List Nat) :
    bytesLE s.length (le_load s) = s.map (· % 256) := by
  induction s with
  | nil => rfl
  | cons b s ih =>
    simp only [List.length_cons, bytesLE, le_load, List.map_cons]
    have h1 : (b % 256 + 256 * le_load s) % 256 = b % 256 := by omega
    have h2 : (b % 256 + 256 * le_load s) / 256 = le_load s := by omega
    rw [h1, h2, ih]

theorem mm_crc32_load {k : Nat} (h : Nat) (s : List Nat) (hk : s.length = k) :
    mm_crc32 k h (le_load s) = crcFold (h % 2 ^ 32) s := by
  subst hk
  rw [mm_crc32, bytesLE_le_load, crcFold_map_mod]

theorem mm_crc32_lt (k crc v : Nat) : mm_crc32 k crc v < 2 ^ 32 :=
  crcFold_lt _ (Nat.mod_lt _ (by norm_num))

theorem crcFold_append (h : Nat) (s t : List Nat) :
    crcFold h (s ++ t) = crcFold (crcFold h s) t := by
  simp [crcFold]

/-- Consuming a `k`-byte chunk via the instruction and then folding the
rest equals folding the whole buffer (32-bit accumulator). -/
theorem stage_step {k h : Nat} (r : List Nat) (hk : k ≤ r.length)
    (hh : h < 2 ^ 32) :
    crcFold (mm_crc32 k h (le_load (r.take k))) (r.drop k) = crcFold h r := by
  rw [mm_crc32_load h (r.take k) (by simpa using hk), Nat.mod_eq_of_lt hh,
    ← crcFold_append, List.take_append_drop]

/-- The 8-byte loop: the (truncated) accumulator folded with the
unconsumed tail equals folding the whole input, and the tail is shorter
than 8 bytes. -/
theorem hwLoop64_spec (hh : Nat) (s : List Nat) :
    crcFold ((hwLoop64 hh s).1 % 2 ^ 32) (hwLoop64 hh s).2
      = crcFold (hh % 2 ^ 32) s ∧ (hwLoop64 hh s).2.length ≤ 7 := by
  induction hh, s using hwLoop64.induct with
  | case1 hh s hcond ih =>
    have heq : hwLoop64 hh s = hwLoop64 (mm_crc32 8 hh (le_load (s.take 8))) (s.drop 8) := by
      rw [hwLoop64]
      simp [hcond]
    rw [heq]
    refine ⟨?_, ih.2⟩
    rw [ih.1, Nat.mod_eq_of_lt (mm_crc32_lt _ _ _),
      mm_crc32_load _ (s.take 8) (by simp; omega), ← crcFold_append,
      List.take_append_drop]
  | case2 hh s hcond =>
    have heq : hwLoop64 hh s = (hh, s) := by
      rw [hwLoop64]
      simp [hcond]
    rw [heq]
    refine ⟨rfl, ?_⟩
    show s.length ≤ 7
    omega

/-- Core equivalence: the chunked hardware body computes exactly the
bit-serial software checksum, for every buffer. -/
theorem crc32c_hw_body_eq_sw (s : List Nat) : crc32c_hw_body s = crc32c_sw s := by
  obtain ⟨hfold, hlen⟩ := hwLoop64_spec 0xffffffff s
  rw [crc32c_hw_body, crc32c_sw]
  set r0 := (hwLoop64 0xffffffff s).2 with hr0
  set h0 := (hwLoop64 0xffffffff s).1 % 2 ^ 32 with hh0
  have h0lt : h0 < 2 ^ 32 := Nat.mod_lt _ (by norm_num)
  have hbase : crcFold h0 r0 = crcFold 0xffffffff s := by
    have : (0xffffffff : Nat) % 2 ^ 32 = 0xffffffff := by norm_num
    rw [← this]
    exact hfold
  set h1 := if r0.length > 3 then mm_crc32 4 h0 (le_load (r0.take 4)) else h0 with hh1
  set r1 := if r0.length > 3 then r0.drop 4 else r0 with hr1
  have s1 : crcFold h1 r1 = crcFold h0 r0 ∧ h1 < 2 ^ 32 ∧ r1.length ≤ 3 := by
    rw [hh1, hr1]
    split
    · rename_i hc
      exact ⟨stage_step r0 (by omega) h0lt, mm_crc32_lt _ _ _, by simp; omega⟩
    · rename_i hc
      exact ⟨rfl, h0lt, by omega⟩
  obtain ⟨e1, lt1, len1⟩ := s1
  set h2 := if r1.length > 1 then mm_crc32 2 h1 (le_load (r1.take 2)) else h1 with hh2
  set r2 := if r1.length > 1 then r1.drop 2 else r1 with hr2
  have s2 : crcFold h2 r2 = crcFold h1 r1 ∧ h2 < 2 ^ 32 ∧ r2.length ≤ 1 := by
    rw [hh2, hr2]
    split
    · rename_i hc
      exact ⟨stage_step r1 (by omega) lt1, mm_crc32_lt _ _ _, by simp; omega⟩
    · rename_i hc
      exact ⟨rfl, lt1, by omega⟩
  obtain ⟨e2, lt2, len2⟩ := s2
  have s3 : (if r2.length > 0 then mm_crc32 1 h2 (le_load (r2.take 1)) else h2)
      = crcFold h2 r2 := by
    split
    · rename_i hc
      have hstep := stage_step (k := 1) r2 (by omega) lt2
      rwa [List.drop_eq_nil_of_le (by omega), crcFold] at hstep
    · rename_i hc
      have hnil : r2 = [] := List.length_eq_zero.mp (by omega)
      rw [hnil]
      rfl
  rw [s3, e2, e1, hbase]

/-! ### Spec-side bit-serial definition (for the refinement claim about
`crc32c_sw`).  This definition follows the words of the specification —
"polynomial `0x82F63B78` in reversed-bit form, an initial register value
of all-ones, 8 shift-and-XOR steps per byte, and a final one's-complement
of the register" — not the C code. -/

/-- One shift-and-XOR step as the spec words it: shift the register right
one bit and XOR in the reversed polynomial when the bit shifted out was
set. -/
def specStep (h : Nat) : Nat := (h / 2) ^^^ (if h % 2 = 1 then POLY else 0)

/-- A byte enters the low bits of the register, then 8 shift-and-XOR
steps are performed. -/
def specByteStep (h b : Nat) : Nat :=
  (List.range 8).foldl (fun x _ => specStep x) (h ^^^ (b % 256))

/-- The CRC-32C of a buffer as the specification describes it: all-ones
initial register, 8 shift-and-XOR steps per byte, final one's-complement
(XOR with the all-ones 32-bit word). -/
def crc32c_bitserial_spec (s : List Nat) : Nat :=
  (s.foldl specByteStep (2 ^ 32 - 1)) ^^^ (2 ^ 32 - 1)

theorem specStep_eq (h : Nat) : specStep h = crcStep h := by
  unfold specStep crcStep
  split
  · rfl
  · exact Nat.xor_zero _

theorem range_foldl_iterate (f : Nat → Nat) (n a : Nat) :
    (List.range n).foldl (fun x _ => f x) a = f^[n] a := by
  induction n with
  | zero => rfl
  | succ n ih =>
    rw [List.range_succ, List.foldl_append, ih, Function.iterate_succ_apply']
    rfl

theorem specByteStep_eq (h b : Nat) : specByteStep h b = crcByte h b := by
  unfold specByteStep crcByte
  rw [range_foldl_iterate, show specStep = crcStep from funext specStep_eq]

theorem crc32c_sw_eq_bitserial_spec (s : List Nat) :
    crc32c_sw s = crc32c_bitserial_spec s := by
  unfold crc32c_sw crc32c_bitserial_spec crcFold
  have h1 : (2 ^ 32 - 1 : Nat) = 0xffffffff := by norm_num
  rw [h1]
  have h2 : ∀ (t : List Nat) (h : Nat),
      List.foldl specByteStep h t = List.foldl crcByte h t := by
    intro t
    induction t with
    | nil => intro h; rfl
    | cons b t ih =>
      intro h
      rw [List.foldl_cons, List.foldl_cons, specByteStep_eq, ih]
  rw [h2]

/-! ### Dispatcher and process-wide state.

The process-wide variables `g_crc32c_once`, `g_force_sw` and `g_impl`
form the state.  Two ambient facts of the process are parameters of
every operation: `hwcap`, the (fixed) answer of the CPUID query made by
`cpu_has_hw_crc`, and `env`, the (fixed) value of `getenv("CRC32C_FORCE")`
(`none` models a NULL return).  The runtime behaviour of the hardware
instruction path is the parameter `hwFn` wherever an operation executes
`crc32c_hw_body`; its architecturally specified value is the function
`crc32c_hw_body` above (the self-check exists precisely because the
hardware actually executing it might disagree with that ideal). -/

/-- The C enum `typedef enum { CRC32C_IMPL_AUTO, CRC32C_IMPL_HW, CRC32C_IMPL_SW }`. -/
inductive crc32c_impl
  | AUTO
  | HW
  | SW
deriving DecidableEq, Repr

/-- The process-wide dispatch state: the `pthread_once` guard, the
`volatile int g_force_sw` flag and the cached selector `g_impl`
(initialized to `CRC32C_IMPL_SW`). -/
structure CrcState where
  once_done : Bool
  g_force_sw : Bool
  g_impl : crc32c_impl
deriving DecidableEq, Repr

/-- The state at process start: once-guard not yet fired, no force, and
`g_impl = CRC32C_IMPL_SW` (its static initializer). -/
def initialState : CrcState := ⟨false, false, crc32c_impl.SW⟩

/-- Capability detector `static int cpu_has_hw_crc(void)`: on x86 the result of
`__builtin_cpu_supports("sse4.2")`, a pure CPU query whose (fixed) answer
is the parameter `hwcap`; on other architectures it returns 0. -/
def cpu_has_hw_crc (hwcap : Bool) : Bool := hwcap

/-- The `getenv("CRC32C_FORCE")` block of `crc32c_init`: the value of
`g_force_sw` after consulting the environment.  `"sw"` sets it; `"hw"`
clears it and re-sets it when the CPU lacks support (`strcmp` equality
is string equality); any other value, or an unset variable (`NULL`),
leaves it unchanged. -/
def env_force (hwcap : Bool) (env : Option String) (prev : Bool) : Bool :=
  match env with
  | some v =>
      if v = "sw" then true
      else if v = "hw" then !cpu_has_hw_crc hwcap
      else prev
  | none => prev

/-- Initializer `static void crc32c_init(void)`: the body run by `pthread_once`.
If `g_force_sw` is already set, cache software and return.  Otherwise
update `g_force_sw` from the environment (`env_force`), then cache
hardware iff the flag is clear and the CPU supports the instruction. -/
def crc32c_init (hwcap : Bool) (env : Option String) (st : CrcState) : CrcState :=
  if st.g_force_sw then { st with g_impl := crc32c_impl.SW }
  else
    if !(env_force hwcap env st.g_force_sw) && cpu_has_hw_crc hwcap then
      { st with g_force_sw := env_force hwcap env st.g_force_sw,
                g_impl := crc32c_impl.HW }
    else
      { st with g_force_sw := env_force hwcap env st.g_force_sw,
                g_impl := crc32c_impl.SW }

/-- Once guard `pthread_once(&g_crc32c_once, f)`: run `f` and mark the guard the
first time, do nothing afterwards. -/
def runOnce (f : CrcState → CrcState) (st : CrcState) : CrcState :=
  if st.once_done then st else { f st with once_done := true }

/-- Name query `const char *crc32c_impl_name(void)`: initialize once, then report
`"hw"` or `"sw"` from the cached selector. -/
def crc32c_impl_name (hwcap : Bool) (env : Option String) (st : CrcState) :
    String × CrcState :=
  ((if (runOnce (crc32c_init hwcap env) st).g_impl = crc32c_impl.HW then "hw"
    else "sw"),
   runOnce (crc32c_init hwcap env) st)

/-- Availability query `int crc32c_hw_available(void) { return cpu_has_hw_crc(); }` —
reads no dispatch state and writes none. -/
def crc32c_hw_available (hwcap : Bool) (st : CrcState) : Bool × CrcState :=
  (cpu_has_hw_crc hwcap, st)

/-- Force override `void crc32c_force_software(void)`: set `g_force_sw`, fire the
once-guard if it has not fired yet, then overwrite the cached selector
with software. -/
def crc32c_force_software (hwcap : Bool) (env : Option String) (st : CrcState) :
    CrcState :=
  let st1 := runOnce (crc32c_init hwcap env) { st with g_force_sw := true }
  { st1 with g_impl := crc32c_impl.SW }

/-- Known vector `static const char *k_vec = "123456789"` — the bytes of the 9-byte
ASCII digit string. -/
def k_vec : List Nat := [0x31, 0x32, 0x33, 0x34, 0x35, 0x36, 0x37, 0x38, 0x39]

/-- Deterministic pattern `uint8_t pattern[512]` with `pattern[i] = (uint8_t)(i * 3 + 1)`. -/
def pattern : List Nat := (List.range 512).map (fun i => (i * 3 + 1) % 256)

/-- Offset set `const size_t offsets[] = {0, 1, 2, 3, 4, 7, 8, 15, 31, 63}`. -/
def offsets : List Nat := [0, 1, 2, 3, 4, 7, 8, 15, 31, 63]

/-- Length set `const size_t lengths[] = {0, 1, 2, 3, 4, 7, 8, 15, 16, 31, 32, 63, 64, 255}`. -/
def lengths : List Nat := [0, 1, 2, 3, 4, 7, 8, 15, 16, 31, 32, 63, 64, 255]

/-- The sub-slice of `pattern` that `crc32c_hw_body(pattern + off, len)`
reads. -/
def patternSlice (off len : Nat) : List Nat := (pattern.drop off).take len

/-- The failure counter of `crc32c_selfcheck`: one check of the known
vector, then the two nested loops over `offsets` × `lengths`, skipping
combinations with `off + len > sizeof(pattern)` and counting every
disagreement between the hardware path (`hwFn`, the runtime behaviour of
`crc32c_hw_body`) and `crc32c_sw` on the exact sub-slice. -/
def selfcheckFailures (hwFn : List Nat → Nat) : Nat :=
  offsets.foldl (fun acc off =>
    lengths.foldl (fun acc2 len =>
      if off + len > 512 then acc2
      else if hwFn (patternSlice off len) ≠ crc32c_sw (patternSlice off len) then
        acc2 + 1
      else acc2) acc)
    (if hwFn k_vec ≠ crc32c_sw k_vec then 1 else 0)

/-- Self-check `int crc32c_selfcheck(void)` (x86 body): initialize once; if the
cached selector is not hardware there is nothing to check, return 0;
otherwise count disagreements between the two engines and, if any,
force software and return -1. -/
def crc32c_selfcheck (hwFn : List Nat → Nat) (hwcap : Bool) (env : Option String)
    (st : CrcState) : Int × CrcState :=
  if (runOnce (crc32c_init hwcap env) st).g_impl ≠ crc32c_impl.HW then
    (0, runOnce (crc32c_init hwcap env) st)
  else if selfcheckFailures hwFn ≠ 0 then
    (-1, crc32c_force_software hwcap env (runOnce (crc32c_init hwcap env) st))
  else (0, runOnce (crc32c_init hwcap env) st)

/-- Dispatcher `uint32_t crc32c(const char *src, size_t len)` (x86 variant):
initialize once, then run `crc32c_hw_body` (whose runtime behaviour is
`hwFn`) when the cached selector is hardware and `crc32c_sw` otherwise. -/
def crc32c (hwFn : List Nat → Nat) (hwcap : Bool) (env : Option String)
    (s : List Nat) (st : CrcState) : Nat × CrcState :=
  ((if (runOnce (crc32c_init hwcap env) st).g_impl = crc32c_impl.HW then hwFn s
    else crc32c_sw s),
   runOnce (crc32c_init hwcap env) st)

/-- A public operation of the library, for stating properties over
arbitrary sequences of calls.  The checksum and self-check operations
carry the runtime hardware behaviour they would execute. -/
inductive Op
  | name
  | hwAvail
  | force
  | selfcheck (hwFn : List Nat → Nat)
  | checksum (hwFn : List Nat → Nat) (s : List Nat)

/-- The state after one public operation (results discarded). -/
def runOp (hwcap : Bool) (env : Option String) (st : CrcState) : Op → CrcState
  | Op.name => (crc32c_impl_name hwcap env st).2
  | Op.hwAvail => (crc32c_hw_available hwcap st).2
  | Op.force => crc32c_force_software hwcap env st
  | Op.selfcheck hwFn => (crc32c_selfcheck hwFn hwcap env st).2
  | Op.checksum hwFn s => (crc32c hwFn hwcap env s st).2

/-- The state after a sequence of public operations. -/
def runOps (hwcap : Bool) (env : Option String) (ops : List Op) (st : CrcState) :
    CrcState :=
  ops.foldl (runOp hwcap env) st

/-! ### Dispatch lemmas. -/

theorem runOnce_of_done {f : CrcState → CrcState} {st : CrcState}
    (h : st.once_done = true) : runOnce f st = st := by
  simp [runOnce, h]

theorem crc32c_init_once (hwcap : Bool) (env : Option String) (st : CrcState) :
    (crc32c_init hwcap env st).once_done = st.once_done := by
  unfold crc32c_init
  split
  · rfl
  · split <;> rfl

theorem crc32c_init_force (hwcap : Bool) (env : Option String) (st : CrcState)
    (h : st.g_force_sw = true) :
    crc32c_init hwcap env st = { st with g_impl := crc32c_impl.SW } := by
  simp [crc32c_init, h]

/-- After `crc32c_force_software` the once-guard has fired and the cached
selector is software, whatever the prior state. -/
theorem force_software_ratcheted (hwcap : Bool) (env : Option String)
    (st : CrcState) :
    (crc32c_force_software hwcap env st).once_done = true ∧
    (crc32c_force_software hwcap env st).g_impl = crc32c_impl.SW := by
  unfold crc32c_force_software runOnce
  split
  · rename_i h
    exact ⟨h, rfl⟩
  · exact ⟨rfl, rfl⟩

/-- The force flag stays set through `crc32c_force_software`. -/
theorem force_software_flag (hwcap : Bool) (env : Option String) (st : CrcState) :
    (crc32c_force_software hwcap env st).g_force_sw = true := by
  unfold crc32c_force_software runOnce
  split
  · rfl
  · rw [crc32c_init_force hwcap env _ rfl]

/-- The ratchet invariant — once-guard fired and software cached — is
preserved by every public operation. -/
theorem ratchet_step (hwcap : Bool) (env : Option String) (st : CrcState)
    (h1 : st.once_done = true) (h2 : st.g_impl = crc32c_impl.SW) (op : Op) :
    (runOp hwcap env st op).once_done = true ∧
    (runOp hwcap env st op).g_impl = crc32c_impl.SW := by
  cases op with
  | name => simp [runOp, crc32c_impl_name, runOnce_of_done h1, h1, h2]
  | hwAvail => exact ⟨h1, h2⟩
  | force => exact force_software_ratcheted hwcap env st
  | selfcheck hwFn =>
    simp only [runOp, crc32c_selfcheck, runOnce_of_done h1, h2]
    exact ⟨h1, h2⟩
  | checksum hwFn s => simp [runOp, crc32c, runOnce_of_done h1, h1, h2]

theorem ratchet_runOps (hwcap : Bool) (env : Option String) (ops : List Op)
    (st : CrcState) (h1 : st.once_done = true)
    (h2 : st.g_impl = crc32c_impl.SW) :
    (runOps hwcap env ops st).once_done = true ∧
    (runOps hwcap env ops st).g_impl = crc32c_impl.SW := by
  induction ops generalizing st with
  | nil => exact ⟨h1, h2⟩
  | cons op ops ih =>
    obtain ⟨h1', h2'⟩ := ratchet_step hwcap env st h1 h2 op
    exact ih (runOp hwcap env st op) h1' h2'

/-- In a ratcheted state the reported implementation name is `"sw"`. -/
theorem name_of_ratcheted (hwcap : Bool) (env : Option String) {st : CrcState}
    (h1 : st.once_done = true) (h2 : st.g_impl = crc32c_impl.SW) :
    (crc32c_impl_name hwcap env st).1 = "sw" := by
  simp [crc32c_impl_name, runOnce_of_done h1, h2]

/-! ### Counting lemmas for the self-check failure counter. -/

theorem foldl_congr_fn {α : Type} {f g : Nat → α → Nat}
    (h : ∀ a x, f a x = g a x) :
    ∀ (l : List α) (acc : Nat), List.foldl f acc l = List.foldl g acc l := by
  intro l
  induction l with
  | nil => intro acc; rfl
  | cons x l ih =>
    intro acc
    rw [List.foldl_cons, List.foldl_cons, h, ih]

theorem foldl_add_sum {α : Type} (g : α → Nat) :
    ∀ (l : List α) (acc : Nat),
      List.foldl (fun a x => a + g x) acc l = acc + (l.map g).sum := by
  intro l
  induction l with
  | nil => intro acc; simp
  | cons x l ih =>
    intro acc
    rw [List.foldl_cons, ih, List.map_cons, List.sum_cons]
    omega

theorem sum_map_ne_zero {α : Type} (g : α → Nat) (l : List α) :
    (l.map g).sum ≠ 0 ↔ ∃ x ∈ l, g x ≠ 0 := by
  induction l with
  | nil => simp
  | cons x l ih =>
    rw [List.map_cons, List.sum_cons]
    constructor
    · intro h
      rcases Nat.eq_zero_or_pos (g x) with hx | hx
      · rw [hx] at h
        obtain ⟨y, hy, hgy⟩ := ih.mp (by omega)
        exact ⟨y, List.mem_cons_of_mem x hy, hgy⟩
      · exact ⟨x, List.mem_cons_self x l, by omega⟩
    · rintro ⟨y, hy, hgy⟩
      rcases List.mem_cons.mp hy with rfl | hy
      · omega
      · have := ih.mpr ⟨y, hy, hgy⟩
        omega

/-- Contribution of one `(off, len)` combination to the failure count. -/
def sliceContrib (hwFn : List Nat → Nat) (off len : Nat) : Nat :=
  if off + len > 512 then 0
  else if hwFn (patternSlice off len) ≠ crc32c_sw (patternSlice off len) then 1
  else 0

theorem selfcheckFailures_eq (hwFn : List Nat → Nat) :
    selfcheckFailures hwFn =
      (if hwFn k_vec ≠ crc32c_sw k_vec then 1 else 0) +
      (offsets.map (fun off => (lengths.map (sliceContrib hwFn off)).sum)).sum := by
  unfold selfcheckFailures
  have hinner : ∀ (off acc : Nat),
      List.foldl (fun acc2 len =>
        if off + len > 512 then acc2
        else if hwFn (patternSlice off len) ≠ crc32c_sw (patternSlice off len) then
          acc2 + 1
        else acc2) acc lengths
      = acc + (lengths.map (sliceContrib hwFn off)).sum := by
    intro off acc
    rw [foldl_congr_fn (g := fun a len => a + sliceContrib hwFn off len)
      (by
        intro a len
        simp only [sliceContrib]
        split_ifs <;> omega)]
    exact foldl_add_sum _ lengths acc
  rw [foldl_congr_fn (g := fun acc off =>
      acc + (lengths.map (sliceContrib hwFn off)).sum) (fun a off => hinner off a)]
  exact foldl_add_sum _ offsets _

/-- The failure counter is nonzero exactly when the two engines disagree
on the known vector or on one of the checked pattern slices. -/
theorem selfcheckFailures_ne_zero (hwFn : List Nat → Nat) :
    selfcheckFailures hwFn ≠ 0 ↔
      hwFn k_vec ≠ crc32c_sw k_vec ∨
      ∃ off ∈ offsets, ∃ len ∈ lengths, off + len ≤ 512 ∧
        hwFn (patternSlice off len) ≠ crc32c_sw (patternSlice off len) := by
  rw [selfcheckFailures_eq]
  have hsplit : ∀ a b : Nat, a + b ≠ 0 ↔ a ≠ 0 ∨ b ≠ 0 := by omega
  rw [hsplit]
  constructor
  · rintro (hk | hs)
    · left
      by_contra h
      simp [h] at hk
    · right
      obtain ⟨off, hoff, hsum⟩ := (sum_map_ne_zero _ offsets).mp hs
      obtain ⟨len, hlen, hc⟩ := (sum_map_ne_zero _ lengths).mp hsum
      refine ⟨off, hoff, len, hlen, ?_⟩
      unfold sliceContrib at hc
      split_ifs at hc with hgt hbad
      · omega
      · exact ⟨by omega, hbad⟩
      · omega
  · rintro (hk | ⟨off, hoff, len, hlen, hle, hbad⟩)
    · left
      simp [hk]
    · right
      refine (sum_map_ne_zero _ offsets).mpr ⟨off, hoff, ?_⟩
      refine (sum_map_ne_zero _ lengths).mpr ⟨len, hlen, ?_⟩
      unfold sliceContrib
      rw [if_neg (by omega), if_pos hbad]
      omega

/-! ### Auxiliary facts for the claims. -/

/-- The operation `crc32c_force_software` is the identity on a state that already has
the guard fired, the force flag set and software cached. -/
theorem force_software_idem_state (hwcap : Bool) (env : Option String)
    (st : CrcState) (h1 : st.once_done = true) (h2 : st.g_force_sw = true)
    (h3 : st.g_impl = crc32c_impl.SW) :
    crc32c_force_software hwcap env st = st := by
  rcases st with ⟨od, fs, im⟩
  simp only at h1 h2 h3
  subst h1
  subst h2
  subst h3
  rfl

/-! ### The claims. -/

/-- Claim C1: for every buffer (and hence every length `n ≥ 0`), the
software engine `crc32c_sw` returns the CRC-32C computed by the standard
reversed-polynomial bit-serial algorithm: polynomial `0x82F63B78` in
reversed-bit form, all-ones initial 32-bit register, 8 shift-and-XOR
steps per byte, and a final bitwise NOT of the register
(`crc32c_bitserial_spec`, written from the specification's words). -/
theorem claim_C1 (s : List Nat) : crc32c_sw s = crc32c_bitserial_spec s :=
  crc32c_sw_eq_bitserial_spec s

/-- Claim C2 (code bug at the `__i386__` compilation): the claimed
bit-identity of the hardware engine with `crc32c_sw` holds for the
`__x86_64__` body on every buffer and for the non-x86 fallback by
definition, but it fails on the `__i386__` build (also x86, also
`X86_ONLY`): that body has no bulk loop and consumes at most 7 bytes, so
on the 9-byte known vector it returns the checksum of the first 7 bytes
"1234567" and differs from `crc32c_sw` — the code contradicts the
claimed identity (and its own hw-vs-sw tests) for every buffer of length
at least 8. -/
theorem claim_C2 :
    (∀ s : List Nat, crc32c_hw_body s = crc32c_sw s) ∧
    (∀ s : List Nat, crc32c_hw Arch.x8664 s = crc32c_sw s) ∧
    (∀ s : List Nat, crc32c_hw Arch.other s = crc32c_sw s) ∧
    crc32c_hw Arch.i386 k_vec = crc32c_sw (k_vec.take 7) ∧
    crc32c_hw Arch.i386 k_vec ≠ crc32c_sw k_vec := by
  refine ⟨crc32c_hw_body_eq_sw, fun s => crc32c_hw_body_eq_sw s, fun s => rfl,
    by decide, by decide⟩

/-- Claim C3 (code bug at the `__i386__` compilation): the software
engine, the x86-64 hardware engine, the non-x86 fallback and the
dispatcher running the x86-64 body all return `0xE3069283` on the 9-byte
vector "123456789", but on an `__i386__` build the hardware engine — and
the dispatcher while Hardware is cached — returns `0x124297EA` (the
CRC-32C of "1234567", the only 7 bytes the loop-less body consumes), so
"whichever engine computes it" fails there. -/
theorem claim_C3 :
    crc32c_sw k_vec = 0xE3069283 ∧
    crc32c_hw Arch.x8664 k_vec = 0xE3069283 ∧
    crc32c_hw Arch.other k_vec = 0xE3069283 ∧
    (∀ (hwcap : Bool) (env : Option String) (st : CrcState),
      (crc32c crc32c_hw_body hwcap env k_vec st).1 = 0xE3069283) ∧
    crc32c_hw Arch.i386 k_vec = 0x124297EA ∧
    crc32c_hw Arch.i386 k_vec ≠ 0xE3069283 ∧
    (crc32c crc32c_hw_body_i386 true none k_vec
      (CrcState.mk true false crc32c_impl.HW)).1 = 0x124297EA := by
  have hsw : crc32c_sw k_vec = 0xE3069283 := by decide
  refine ⟨hsw, ?_, hsw, ?_, by decide, by decide, by decide⟩
  · show crc32c_hw_body k_vec = 0xE3069283
    rw [crc32c_hw_body_eq_sw, hsw]
  · intro hwcap env st
    unfold crc32c
    split
    · rw [crc32c_hw_body_eq_sw, hsw]
    · exact hsw

/-- Claim C4: from the undecided state (once-guard not yet fired), the
one-time initialization caches Hardware iff no software-forcing override
ends up active and the capability detector answers true; `CRC32C_FORCE=sw`
always yields Software; `CRC32C_FORCE=hw` yields Hardware exactly when
the detector confirms support (silently Software otherwise); any other
or absent value defers entirely to capability detection. -/
theorem claim_C4 (hwcap : Bool) (env : Option String) (st : CrcState)
    (h : st.once_done = false) :
    (((runOnce (crc32c_init hwcap env) st).g_impl = crc32c_impl.HW) ↔
      ((runOnce (crc32c_init hwcap env) st).g_force_sw = false ∧ hwcap = true)) ∧
    (env = some "sw" →
      (runOnce (crc32c_init hwcap env) st).g_impl = crc32c_impl.SW) ∧
    (env = some "hw" →
      (((runOnce (crc32c_init hwcap env) st).g_impl = crc32c_impl.HW) ↔
        (st.g_force_sw = false ∧ hwcap = true))) ∧
    ((env = none ∨ ∃ v, env = some v ∧ v ≠ "sw" ∧ v ≠ "hw") →
      (((runOnce (crc32c_init hwcap env) st).g_impl = crc32c_impl.HW) ↔
        (st.g_force_sw = false ∧ hwcap = true))) := by
  have hro : runOnce (crc32c_init hwcap env) st
      = { crc32c_init hwcap env st with once_done := true } := by
    simp [runOnce, h]
  rcases st with ⟨od, fs, im⟩
  cases fs with
  | true =>
    rw [hro, crc32c_init_force hwcap env _ rfl]
    simp
  | false =>
    rw [hro]
    unfold crc32c_init
    rw [if_neg (by simp)]
    cases env with
    | none =>
      simp only [env_force, cpu_has_hw_crc]
      cases hwcap <;> simp
    | some v =>
      by_cases hsw : v = "sw"
      · subst hsw
        simp only [env_force, cpu_has_hw_crc]
        cases hwcap <;> simp
      · by_cases hhw : v = "hw"
        · subst hhw
          simp only [env_force, cpu_has_hw_crc]
          cases hwcap <;> simp
        · simp only [env_force, cpu_has_hw_crc, if_neg hsw, if_neg hhw]
          cases hwcap <;> simp [hsw, hhw]

/-- Claim C5 (ratchet): after `crc32c_force_software`, no sequence of
public operations ever moves the cached selector or the reported
implementation name back to hardware; and whenever the self-check forced
software (returned nonzero), the same holds for the state it left
behind. -/
theorem claim_C5 (hwcap : Bool) (env : Option String) (st : CrcState)
    (ops : List Op) :
    ((runOps hwcap env ops (crc32c_force_software hwcap env st)).g_impl
        = crc32c_impl.SW ∧
      (crc32c_impl_name hwcap env
        (runOps hwcap env ops (crc32c_force_software hwcap env st))).1 = "sw") ∧
    ∀ hwFn : List Nat → Nat,
      (crc32c_selfcheck hwFn hwcap env st).1 = 0 ∨
      ((runOps hwcap env ops ((crc32c_selfcheck hwFn hwcap env st).2)).g_impl
          = crc32c_impl.SW ∧
        (crc32c_impl_name hwcap env
          (runOps hwcap env ops ((crc32c_selfcheck hwFn hwcap env st).2))).1
          = "sw") := by
  constructor
  · obtain ⟨hod, him⟩ := force_software_ratcheted hwcap env st
    obtain ⟨hod', him'⟩ := ratchet_runOps hwcap env ops _ hod him
    exact ⟨him', name_of_ratcheted hwcap env hod' him'⟩
  · intro hwFn
    unfold crc32c_selfcheck
    split
    · left
      rfl
    · split
      · right
        obtain ⟨hod, him⟩ := force_software_ratcheted hwcap env
          (runOnce (crc32c_init hwcap env) st)
        obtain ⟨hod', him'⟩ := ratchet_runOps hwcap env ops _ hod him
        exact ⟨him', name_of_ratcheted hwcap env hod' him'⟩
      · left
        rfl

/-- Claim C6: with the once-guard fired and Hardware cached, the
self-check returns nonzero exactly when the runtime hardware engine and
the software engine disagree on the known vector "123456789" or on some
checked sub-slice of the deterministic pattern (`pattern[i] = i*3+1 mod
256`, offsets {0,1,2,3,4,7,8,15,31,63}, lengths
{0,1,2,3,4,7,8,15,16,31,32,63,64,255}, combinations fitting in the
512-byte pattern); and on failure the dispatcher is forced to Software,
so the implementation name is "sw" immediately afterwards. -/
theorem claim_C6 (hwFn : List Nat → Nat) (hwcap : Bool) (env : Option String)
    (st : CrcState) (h1 : st.once_done = true)
    (h2 : st.g_impl = crc32c_impl.HW) :
    ((crc32c_selfcheck hwFn hwcap env st).1 ≠ 0 ↔
      hwFn k_vec ≠ crc32c_sw k_vec ∨
      ∃ off ∈ offsets, ∃ len ∈ lengths, off + len ≤ 512 ∧
        hwFn (patternSlice off len) ≠ crc32c_sw (patternSlice off len)) ∧
    ((crc32c_selfcheck hwFn hwcap env st).1 ≠ 0 →
      (crc32c_impl_name hwcap env (crc32c_selfcheck hwFn hwcap env st).2).1
        = "sw") := by
  have hsc : crc32c_selfcheck hwFn hwcap env st
      = if selfcheckFailures hwFn ≠ 0 then
          (-1, crc32c_force_software hwcap env st)
        else (0, st) := by
    unfold crc32c_selfcheck
    rw [runOnce_of_done h1]
    rw [if_neg (by simp [h2])]
  rw [hsc]
  by_cases hfail : selfcheckFailures hwFn ≠ 0
  · rw [if_pos hfail]
    constructor
    · simp only [ne_eq, neg_eq_zero, one_ne_zero, not_false_eq_true, true_iff]
      exact (selfcheckFailures_ne_zero hwFn).mp hfail
    · intro _
      obtain ⟨hod, him⟩ := force_software_ratcheted hwcap env st
      exact name_of_ratcheted hwcap env hod him
  · rw [if_neg hfail]
    constructor
    · simp only [ne_eq, not_true_eq_false, false_iff]
      intro hcontra
      exact hfail ((selfcheckFailures_ne_zero hwFn).mpr hcontra)
    · intro hcontra
      simp at hcontra

/-- Claim C7: with the once-guard fired, whenever the cached selector is
not Hardware the self-check returns 0 immediately and leaves the whole
dispatch state (selector, force flag, guard) unchanged. -/
theorem claim_C7 (hwFn : List Nat → Nat) (hwcap : Bool) (env : Option String)
    (st : CrcState) (h1 : st.once_done = true)
    (h2 : st.g_impl ≠ crc32c_impl.HW) :
    crc32c_selfcheck hwFn hwcap env st = (0, st) := by
  unfold crc32c_selfcheck
  rw [runOnce_of_done h1]
  rw [if_pos h2]

/-- Claim C8: `crc32c_force_software` is idempotent — a second
invocation leaves the state exactly as the first did, the implementation
name stays "sw", and a checksum call after the second invocation returns
the software reference `crc32c_sw` on every input (whatever the runtime
hardware behaviour). -/
theorem claim_C8 (hwcap : Bool) (env : Option String) (st : CrcState) :
    crc32c_force_software hwcap env (crc32c_force_software hwcap env st)
      = crc32c_force_software hwcap env st ∧
    (crc32c_impl_name hwcap env
      (crc32c_force_software hwcap env
        (crc32c_force_software hwcap env st))).1 = "sw" ∧
    ∀ (hwFn : List Nat → Nat) (s : List Nat),
      (crc32c hwFn hwcap env s
        (crc32c_force_software hwcap env
          (crc32c_force_software hwcap env st))).1 = crc32c_sw s := by
  obtain ⟨hod, him⟩ := force_software_ratcheted hwcap env st
  have hfs := force_software_flag hwcap env st
  have hidem := force_software_idem_state hwcap env
    (crc32c_force_software hwcap env st) hod hfs him
  refine ⟨hidem, ?_, ?_⟩
  · rw [hidem]
    exact name_of_ratcheted hwcap env hod him
  · intro hwFn s
    rw [hidem]
    unfold crc32c
    rw [runOnce_of_done hod]
    rw [if_neg (by simp [him])]

/-- Claim C9: `crc32c_hw_available` is a pure passthrough to the
capability detector `cpu_has_hw_crc`: after any sequence of prior public
operations — including force-software — it returns the detector's
(fixed) answer and neither reads nor modifies the dispatch state. -/
theorem claim_C9 (hwcap : Bool) (env : Option String) (ops : List Op)
    (st : CrcState) :
    crc32c_hw_available hwcap (runOps hwcap env ops st)
      = (cpu_has_hw_crc hwcap, runOps hwcap env ops st) ∧
    crc32c_hw_available hwcap
        (crc32c_force_software hwcap env (runOps hwcap env ops st))
      = (cpu_has_hw_crc hwcap,
         crc32c_force_software hwcap env (runOps hwcap env ops st)) :=
  ⟨rfl, rfl⟩

/-- Claim C10: for the zero-length buffer every checksum entry point —
`crc32c_sw`, `crc32c_hw` on every architecture (both preprocessor
variants of the body execute identically there: every guard is false)
and the dispatching `crc32c` in every dispatch state on both x86
builds — returns 0. -/
theorem claim_C10 :
    crc32c_sw [] = 0 ∧ (∀ a : Arch, crc32c_hw a [] = 0) ∧
    ∀ (hwcap : Bool) (env : Option String) (st : CrcState),
      (crc32c crc32c_hw_body hwcap env [] st).1 = 0 ∧
      (crc32c crc32c_hw_body_i386 hwcap env [] st).1 = 0 := by
  have hsw : crc32c_sw [] = 0 := by decide
  have h386 : crc32c_hw_body_i386 [] = 0 := by decide
  refine ⟨hsw, ?_, ?_⟩
  · intro a
    cases a with
    | x8664 =>
      show crc32c_hw_body [] = 0
      rw [crc32c_hw_body_eq_sw, hsw]
    | i386 => exact h386
    | other => exact hsw
  · intro hwcap env st
    constructor
    · unfold crc32c
      split
      · rw [crc32c_hw_body_eq_sw, hsw]
      · exact hsw
    · unfold crc32c
      split
      · exact h386
      · exact hsw

/-! ### Witnesses: the claim theorems with hypotheses, applied at
concrete inputs. -/

/-- Witness for C4: the pristine initial state has the guard unfired,
and the theorem applies to it. -/
theorem claim_C4_witness :
    initialState.once_done = false ∧
    (((runOnce (crc32c_init true none) initialState).g_impl = crc32c_impl.HW) ↔
      ((runOnce (crc32c_init true none) initialState).g_force_sw = false ∧
        (true : Bool) = true)) ∧
    (none = some "sw" →
      (runOnce (crc32c_init true none) initialState).g_impl = crc32c_impl.SW) ∧
    (none = some "hw" →
      (((runOnce (crc32c_init true none) initialState).g_impl = crc32c_impl.HW) ↔
        (initialState.g_force_sw = false ∧ (true : Bool) = true))) ∧
    (((none : Option String) = none ∨
        ∃ v, (none : Option String) = some v ∧ v ≠ "sw" ∧ v ≠ "hw") →
      (((runOnce (crc32c_init true none) initialState).g_impl = crc32c_impl.HW) ↔
        (initialState.g_force_sw = false ∧ (true : Bool) = true))) :=
  ⟨rfl, claim_C4 true none initialState rfl⟩

/-- Witness for C6: a state with the guard fired and Hardware cached,
with the runtime hardware behaviour taken to be `crc32c_sw` itself. -/
theorem claim_C6_witness :
    (CrcState.mk true false crc32c_impl.HW).once_done = true ∧
    (CrcState.mk true false crc32c_impl.HW).g_impl = crc32c_impl.HW ∧
    (((crc32c_selfcheck crc32c_sw true none
        (CrcState.mk true false crc32c_impl.HW)).1 ≠ 0 ↔
      crc32c_sw k_vec ≠ crc32c_sw k_vec ∨
      ∃ off ∈ offsets, ∃ len ∈ lengths, off + len ≤ 512 ∧
        crc32c_sw (patternSlice off len) ≠ crc32c_sw (patternSlice off len)) ∧
    ((crc32c_selfcheck crc32c_sw true none
        (CrcState.mk true false crc32c_impl.HW)).1 ≠ 0 →
      (crc32c_impl_name true none
        (crc32c_selfcheck crc32c_sw true none
          (CrcState.mk true false crc32c_impl.HW)).2).1 = "sw")) :=
  ⟨rfl, rfl,
    claim_C6 crc32c_sw true none (CrcState.mk true false crc32c_impl.HW) rfl rfl⟩

/-- Witness for C7: a state with the guard fired and Software cached. -/
theorem claim_C7_witness :
    (CrcState.mk true true crc32c_impl.SW).once_done = true ∧
    (CrcState.mk true true crc32c_impl.SW).g_impl ≠ crc32c_impl.HW ∧
    crc32c_selfcheck crc32c_sw true none (CrcState.mk true true crc32c_impl.SW)
      = (0, CrcState.mk true true crc32c_impl.SW) :=
  ⟨rfl, by decide,
    claim_C7 crc32c_sw true none (CrcState.mk true true crc32c_impl.SW) rfl
      (by decide)⟩

end Crc32c
